import Mathlib

/-!
A shallow embedding of the `snake` vim-plugin library
(`src/plugin/snake/__init__.py`) and proofs about its behaviour.

The host editor (vim) owns all real state.  We model the slice of that
state the library reads and writes as `VimState`: the cursor position
(`vim.current.window.cursor`), the current buffer number (`bufnr` of
the active buffer), the contents of the named registers, and the trace
of command strings the library has sent to the host via `vim.command`.
Host calls that only evaluate an expression (`vim.eval`) are modelled
as reads of this state, or — where a claim concerns error handling —
as an oracle `String → Except VimError String` standing for the host's
evaluation of the given expression string.

The process-wide dispatch table `_mapped_functions` is modelled as an
association list from integer keys (the Python `id` of the registered
callable) to thunks; a Python dict write prepends, and `List.lookup`
returns the first (i.e. most recent) binding, matching dict semantics.
-/

namespace Snake

/-- The sentinel string the library stores in a register to mark it as
cleared (`EMPTY_REGISTER` in the source). -/
def EMPTY_REGISTER : String :=
  "Wt4jT@%jfeUf%@+3Vrrh6=Y92xzpasVyM55ghTy+48&k35BNXwxyGa8EFq"

/-- `NS_BUFFER = "b"` from the source. -/
def NS_BUFFER : String := "b"

/-- The slice of the host editor's state that the library observes:
cursor position, current buffer number, register contents (total map:
a vim register always holds some string, `""` when untouched), and the
trace of command strings sent through `vim.command`. -/
structure VimState where
  cursor : Int × Int
  curbuf : Int
  registers : String → String
  history : List String

/-- Python `str.replace(old, new)` specialised to a single-character
`old`, which is the only form the escape helpers in the source use. -/
def replaceChar (c : Char) (rep : List Char) : List Char → List Char
  | [] => []
  | a :: as => (if a = c then rep else [a]) ++ replaceChar c rep as

/-- `escape_string_sq` from the source: double every backslash, then
backslash-escape every single quote (two sequential `str.replace`s). -/
def escape_string_sq (s : String) : String :=
  let s1 := String.mk (replaceChar '\\' ['\\', '\\'] s.data)
  String.mk (replaceChar '\'' ['\\', '\''] s1.data)

/-- `escape_string_dq` from the source: double every backslash, then
backslash-escape every double quote. -/
def escape_string_dq (s : String) : String :=
  let s1 := String.mk (replaceChar '\\' ['\\', '\\'] s.data)
  String.mk (replaceChar '\"' ['\\', '\"'] s1.data)

/-- The escaping described by the spec for C7, written from the spec's
words (a refinement definition, to be compared with the source's
`escape_string_sq`): "k with every backslash doubled and every single
quote backslash-escaped", applied characterwise in one pass. -/
def specEscapeSq (s : String) : String :=
  String.mk (s.data.flatMap fun c =>
    if c = '\\' then ['\\', '\\']
    else if c = '\'' then ['\\', '\''] else [c])

/-- `get_cursor_position`: reads `vim.current.window.cursor`. -/
def get_cursor_position (s : VimState) : Int × Int := s.cursor

/-- `set_cursor_position(p)`: writes `vim.current.window.cursor`. -/
def set_cursor_position (p : Int × Int) (s : VimState) : VimState :=
  { s with cursor := p }

/-- `get_current_buffer`: `int(vim.eval("bufnr('%')"))`. -/
def get_current_buffer (s : VimState) : Int := s.curbuf

/-- `set_buffer(buf)`: sends `command("buffer %d" % buf)`; the host
switches to that buffer. -/
def set_buffer (buf : Int) (s : VimState) : VimState :=
  { s with curbuf := buf,
           history := s.history ++ ["buffer " ++ toString buf] }

/-- `get_register(name)`: evaluates `@name` and maps the sentinel
`EMPTY_REGISTER` to `None` (here `none`). -/
def get_register (name : String) (s : VimState) : Option String :=
  let val := s.registers name
  if val = EMPTY_REGISTER then none else some val

/-- `set_register(name, val)`: sends
`command('let @%s = "%s"' % (name, escape_string_dq(val)))`; the host
unescapes the double-quoted string, storing `val` in the register. -/
def set_register (name val : String) (s : VimState) : VimState :=
  { s with registers := fun n => if n = name then val else s.registers n,
           history := s.history ++
             ["let @" ++ name ++ " = \"" ++ escape_string_dq val ++ "\""] }

/-- `clear_register(name)`: `set_register(name, EMPTY_REGISTER)`. -/
def clear_register (name : String) (s : VimState) : VimState :=
  set_register name EMPTY_REGISTER s

/-- `keys(k)`: escapes `k` with `escape_string_sq` and sends the single
command `execute 'normal! k'`.  (The host's interpretation of the
normal-mode keystrokes is outside the library; the claim about `keys`
concerns only the command string it sends.) -/
def keys (k : String) (s : VimState) : VimState :=
  { s with history := s.history ++
      ["execute 'normal! " ++ escape_string_sq k ++ "'"] }

/-! ## The dispatch table (`_mapped_functions`, `register_fn`,
`dispatch_mapped_function`) -/

/-- The process-wide dict `_mapped_functions`, keyed by the Python
`id` of the registered callable.  A dict write prepends; `List.lookup`
finds the most recent binding first, matching dict overwrite
semantics. -/
abbrev Table (V : Type) : Type := List (Nat × (Unit → V))

/-- `register_fn(fn)`: stores `fn` under `fn_key = id(fn)` (the key is
passed explicitly, standing for `id(fn)`) and returns the dispatch
string `"snake.dispatch_mapped_function(%s)" % fn_key`. -/
def register_fn {V : Type} (t : Table V) (fnKey : Nat) (fn : Unit → V) :
    Table V × String :=
  ((fnKey, fn) :: t,
   "snake.dispatch_mapped_function(" ++ toString fnKey ++ ")")

/-- `dispatch_mapped_function(key)`: looks the key up in
`_mapped_functions`; on `KeyError` raises
`Exception("unable to find mapped function")`, otherwise calls the
stored function and returns its result. -/
def dispatch_mapped_function {V : Type} (t : Table V) (key : Nat) :
    Except String V :=
  match t.lookup key with
  | none => Except.error "unable to find mapped function"
  | some fn => Except.ok (fn ())

/-- `dispatch_mapped_function` as a step on the global table: the
source only reads `_mapped_functions` here, so the table passes
through unchanged. -/
def dispatch_step {V : Type} (t : Table V) (key : Nat) :
    Table V × Except String V :=
  (t, dispatch_mapped_function t key)

/-- The library operations that touch `_mapped_functions`: every other
function in the module neither reads nor writes it. -/
inductive LibOp (V : Type) where
  | register (key : Nat) (fn : Unit → V)
  | dispatch (key : Nat)

/-- Effect of one operation on the dispatch table. -/
def tableStep {V : Type} : LibOp V → Table V → Table V
  | LibOp.register k f, t => (register_fn t k f).1
  | LibOp.dispatch k, t => (dispatch_step t k).1

/-- Effect of a sequence of operations on the dispatch table. -/
def runOps {V : Type} : List (LibOp V) → Table V → Table V
  | [], t => t
  | op :: rest, t => runOps rest (tableStep op t)

/-- The keys of the `register_fn` calls in an operation sequence. -/
def registerKeys {V : Type} (ops : List (LibOp V)) : List Nat :=
  ops.filterMap fun op =>
    match op with
    | LibOp.register k _ => some k
    | LibOp.dispatch _ => none

/-! ## Host errors (`vim.error`) and the functions that meet them -/

/-- A `vim.error` raised by the host; `message` is Python's
`e.message`. -/
structure VimError where
  message : String

/-- Python's `a == b &&` prefix test on character lists, used to model
the `in` operator on strings. -/
def startsWithL : List Char → List Char → Bool
  | [], _ => true
  | _ :: _, [] => false
  | a :: as, b :: bs => a == b && startsWithL as bs

/-- Substring containment on character lists. -/
def containsL (pat : List Char) : List Char → Bool
  | [] => startsWithL pat []
  | b :: bs => startsWithL pat (b :: bs) || containsL pat bs

/-- Python's `pat in s` for strings. -/
def pyIn (pat s : String) : Bool := containsL pat.data s.data

/-- The name-munging at the top of `get_global`:
`if namespace: name = namespace + "_" + name`, then the expression
`"g:%s" % name` handed to `vim.eval`. -/
def globalQuery (name : String) (ns : Option String) : String :=
  "g:" ++ (match ns with
           | some nsp => nsp ++ "_" ++ name
           | none => name)

/-- `get_global(name, namespace=None)`: evaluates `g:name` through the
host oracle; a `vim.error` whose message contains `"Vim:E121"` is
caught and turned into `None`, any other `vim.error` is re-raised. -/
def get_global (host : String → Except VimError String)
    (name : String) (ns : Option String) : Except VimError (Option String) :=
  match host (globalQuery name ns) with
  | Except.ok v => Except.ok (some v)
  | Except.error e =>
      if pyIn "Vim:E121" e.message then Except.ok none else Except.error e

/-- `get_register(name)` in host-oracle form: evaluates `@name` with no
try/except, so a host error propagates; a successful read maps the
sentinel to `None`. -/
def get_register_h (host : String → Except VimError String)
    (name : String) : Except VimError (Option String) :=
  match host ("@" ++ name) with
  | Except.ok v => Except.ok (if v = EMPTY_REGISTER then none else some v)
  | Except.error e => Except.error e

/-- `get_option(name)` in host-oracle form: evaluates `&name`, no
try/except. -/
def get_option_h (host : String → Except VimError String)
    (name : String) : Except VimError String :=
  host ("&" ++ name)

/-- `get_mode()` in host-oracle form: evaluates `mode(1)`, no
try/except. -/
def get_mode_h (host : String → Except VimError String) :
    Except VimError String :=
  host "mode(1)"

/-- `expand(stuff)` in host-oracle form: evaluates
`expand('...')` with single-quote escaping, no try/except. -/
def expand_h (host : String → Except VimError String)
    (stuff : String) : Except VimError String :=
  host ("expand('" ++ escape_string_sq stuff ++ "')")

/-- A host on which every evaluation raises the given `vim.error`. -/
def errHost (e : VimError) : String → Except VimError String :=
  fun _ => Except.error e

/-! ## The module-level `plugin_loader` guard -/

/-- What the last four lines of the module do with `plugin_loader`. -/
inductive LoaderAction where
  | reloadExisting
  | freshImport
deriving DecidableEq

/-- The guard at the bottom of the module:
`if "snake.plugin_loader" in sys.modules: plugin_loader =
reload(plugin_loader)` / `else: import plugin_loader`, as a function of
the current `sys.modules` key set. -/
def plugin_loader_guard (sysModules : List String) : LoaderAction :=
  if "snake.plugin_loader" ∈ sysModules then LoaderAction.reloadExisting
  else LoaderAction.freshImport

/-! ## Python call binding for `AutoCommandContext.let` -/

/-- The parameter list of `def let(name, value, namespace=None)` from
the source; the two required parameters come first. -/
def let_params : List String := ["name", "value", "namespace"]

/-- Whether a Python call with `numPos` positional arguments and the
keyword-argument names `kwNames` binds to a `def` whose parameters are
`params` (first `numRequired` without defaults), with no `*args` or
`**kwargs`.  `false` means the call raises `TypeError`: too many
positional arguments, an unexpected keyword argument, a keyword for an
already positionally-bound parameter, or a missing required
parameter. -/
def pythonCallOk (params : List String) (numRequired numPos : Nat)
    (kwNames : List String) : Bool :=
  decide (numPos ≤ params.length)
  && kwNames.all (fun k => params.contains k)
  && kwNames.all (fun k => !(params.take numPos).contains k)
  && (params.take numRequired).all
       (fun p => decide (params.indexOf p < numPos) || kwNames.contains p)

/-- The keyword-name set of `functools.partial(f, **base)(*args, **new)`:
`base` copied, then updated by `new`. -/
def mergeKwNames (base new : List String) : List String :=
  base.filter (fun k => !(new.contains k)) ++ new

/-- `AutoCommandContext.let(*args, **kwargs)` from the source: it calls
`partial(let, scope=NS_BUFFER)(*args, **kwargs)`, so the underlying
call to `let` carries the keyword names `kwargs ∪ {scope}`; this is
whether that call binds (`false` = `TypeError`). -/
def acc_let_binds (numPos : Nat) (kwNames : List String) : Bool :=
  pythonCallOk let_params 2 numPos (mergeKwNames ["scope"] kwNames)

/-! ## The save/restore context managers -/

/-- `preserve_cursor()`: captures the cursor position, runs the body,
and restores the captured position in a `finally` block, so on every
exit path — the body's outcome (normal value or raised exception)
passes through unchanged. -/
def preserve_cursor {E A : Type} (body : VimState → VimState × Except E A)
    (s : VimState) : VimState × Except E A :=
  let p := get_cursor_position s
  let r := body s
  (set_cursor_position p r.1, r.2)

/-- `preserve_buffer()`: captures the current buffer number, runs the
body, and switches back to the captured buffer in a `finally` block. -/
def preserve_buffer {E A : Type} (body : VimState → VimState × Except E A)
    (s : VimState) : VimState × Except E A :=
  let old := get_current_buffer s
  let r := body s
  (set_buffer old r.1, r.2)

/-- The first loop of `preserve_registers`: for each named register in
order, record `get_register(reg)` in `old_regs` and clear the register.
Dict writes prepend, so `List.lookup` sees the most recent write first,
matching Python dict overwrite semantics. -/
def captureClear : List String → List (String × Option String) → VimState →
    List (String × Option String) × VimState
  | [], d, s => (d, s)
  | r :: rs, d, s =>
      captureClear rs ((r, get_register r s) :: d) (clear_register r s)

/-- The `finally` loop of `preserve_registers`: for each register name
in `regs + special_regs` order, look up its captured contents in
`old_regs` and, when they are not `None`, write them back with
`set_register`.  (A missing key would be a `KeyError` in Python; it
cannot occur, since the capture loops store an entry for every name
iterated here.) -/
def restoreRegs (old : List (String × Option String)) :
    List String → VimState → VimState
  | [], s => s
  | r :: rs, s =>
      restoreRegs old rs
        (match old.lookup r with
         | some (some v) => set_register r v s
         | _ => s)

/-- `preserve_registers(*regs)`: capture-and-clear each named register,
then capture (without clearing) the special registers `'0'` and `'"'`,
run the body, and in a `finally` block restore every register whose
captured contents were not `None`. -/
def preserve_registers {E A : Type} (regs : List String)
    (body : VimState → VimState × Except E A) (s : VimState) :
    VimState × Except E A :=
  let p1 := captureClear regs [] s
  let old := ("\"", get_register "\"" p1.2) ::
             ("0", get_register "0" p1.2) :: p1.1
  let r := body p1.2
  (restoreRegs old (regs ++ ["0", "\""]) r.1, r.2)

/-! ## Association-list lookup helpers -/

/-- Looking up the key of the most recent write finds its value. -/
theorem lookup_cons_self {α β : Type} [BEq α] [LawfulBEq α] (k : α) (v : β)
    (t : List (α × β)) : ((k, v) :: t).lookup k = some v := by
  simp [List.lookup]

/-- Looking up a different key skips the head binding. -/
theorem lookup_cons_ne {α β : Type} [BEq α] [LawfulBEq α] {k k' : α}
    (h : k ≠ k') (v : β) (t : List (α × β)) :
    ((k', v) :: t).lookup k = t.lookup k := by
  simp [List.lookup, beq_false_of_ne h]

/-- A key absent from the key list is not found. -/
theorem lookup_eq_none_of_not_mem {α β : Type} [BEq α] [LawfulBEq α] {k : α} :
    ∀ {t : List (α × β)}, k ∉ t.map Prod.fst → t.lookup k = none
  | [], _ => rfl
  | (k2, _) :: rest, h => by
      have h1 : k ≠ k2 := by intro he; apply h; simp [he]
      have h2 : k ∉ rest.map Prod.fst := by intro he; apply h; simp [he]
      rw [lookup_cons_ne h1, lookup_eq_none_of_not_mem h2]

/-- Unfolding `registerKeys` over a `register` operation. -/
theorem registerKeys_cons_register {V : Type} (k : Nat) (f : Unit → V)
    (rest : List (LibOp V)) :
    registerKeys (LibOp.register k f :: rest) = k :: registerKeys rest := rfl

/-- Unfolding `registerKeys` over a `dispatch` operation. -/
theorem registerKeys_cons_dispatch {V : Type} (k : Nat)
    (rest : List (LibOp V)) :
    registerKeys (LibOp.dispatch k :: rest) = registerKeys rest := rfl

/-- Operations whose `register_fn` calls all use keys other than `k`
leave the binding of `k` unchanged. -/
theorem runOps_lookup_stable {V : Type} (k : Nat) (ops : List (LibOp V)) :
    ∀ t : Table V, k ∉ registerKeys ops →
      (runOps ops t).lookup k = t.lookup k := by
  induction ops with
  | nil => intro t _; rfl
  | cons op rest ih =>
      intro t h
      cases op with
      | register k2 f2 =>
          rw [registerKeys_cons_register] at h
          have h1 : k ≠ k2 := fun he => h (he ▸ List.mem_cons_self _ _)
          have h2 : k ∉ registerKeys rest :=
            fun he => h (List.mem_cons_of_mem _ he)
          show (runOps rest ((k2, f2) :: t)).lookup k = t.lookup k
          rw [ih _ h2, lookup_cons_ne h1]
      | dispatch k2 =>
          rw [registerKeys_cons_dispatch] at h
          exact ih _ h

/-- C1: for every callable `fn`, `register_fn(fn)` stores `fn` in the
process-wide dispatch table under the key `id(fn)` (here the explicit
`fnKey`) and returns the string
`"snake.dispatch_mapped_function(<id(fn)>)"`; a subsequent
`dispatch_mapped_function(id(fn))` finds that entry, invokes `fn`, and
returns `fn`'s result. -/
theorem register_then_dispatch {V : Type} (t : Table V) (fnKey : Nat)
    (fn : Unit → V) :
    (register_fn t fnKey fn).2 =
      "snake.dispatch_mapped_function(" ++ toString fnKey ++ ")"
    ∧ dispatch_mapped_function (register_fn t fnKey fn).1 fnKey =
        Except.ok (fn ()) := by
  refine ⟨rfl, ?_⟩
  show dispatch_mapped_function ((fnKey, fn) :: t) fnKey = Except.ok (fn ())
  simp [dispatch_mapped_function, lookup_cons_self]

/-- C9: `dispatch_mapped_function(key)` never modifies the dispatch
table; for a key that is not stored it raises
`Exception("unable to find mapped function")`, and it invokes the
stored callback (returning its result) exactly when the key is
present. -/
theorem dispatch_unknown_key {V : Type} (t : Table V) (key : Nat) :
    (dispatch_step t key).1 = t
    ∧ (key ∉ t.map Prod.fst →
        (dispatch_step t key).2 =
          Except.error "unable to find mapped function")
    ∧ (∀ f : Unit → V, t.lookup key = some f →
        (dispatch_step t key).2 = Except.ok (f ())) := by
  refine ⟨rfl, ?_, ?_⟩
  · intro h
    have hl : t.lookup key = none := lookup_eq_none_of_not_mem h
    show dispatch_mapped_function t key = _
    simp [dispatch_mapped_function, hl]
  · intro f hf
    show dispatch_mapped_function t key = _
    simp [dispatch_mapped_function, hf]

/-- Concrete stored callback for the C9 witness. -/
def wfn9 : Unit → Nat := fun _ => 5

/-- Witness for C9 at the table `[(1, wfn9)]`: key `2` is unknown, key
`1` dispatches to the stored callback. -/
theorem dispatch_unknown_key_witness :
    (dispatch_step [(1, wfn9)] 2).2 =
      Except.error "unable to find mapped function"
    ∧ (dispatch_step [(1, wfn9)] 1).2 = Except.ok (wfn9 ()) :=
  ⟨(dispatch_unknown_key [(1, wfn9)] 2).2.1 (by decide),
   (dispatch_unknown_key [(1, wfn9)] 1).2.2 wfn9 rfl⟩

/-- C5: the dispatch table is keyed by the integer identity of each
registered callback and grows monotonically: only `register_fn` writes
to it (`dispatch_step` passes it through, see `dispatch_unknown_key`),
and after any sequence of operations every previously registered key
still maps to its callback.  The hypothesis that register keys are
pairwise distinct reflects Python's `id`: the table keeps every
registered callable alive, so a live callable's identity is never
reused by a later one. -/
theorem mapped_functions_monotone {V : Type} (ops : List (LibOp V))
    (t0 : Table V) (k : Nat) (f : Unit → V)
    (hmem : LibOp.register k f ∈ ops)
    (hfresh : (registerKeys ops).Nodup) :
    (runOps ops t0).lookup k = some f := by
  induction ops generalizing t0 with
  | nil => cases hmem
  | cons op rest ih =>
      by_cases he : op = LibOp.register k f
      · subst he
        rw [registerKeys_cons_register] at hfresh
        have hk : k ∉ registerKeys rest := (List.nodup_cons.mp hfresh).1
        show (runOps rest ((k, f) :: t0)).lookup k = some f
        rw [runOps_lookup_stable k rest _ hk, lookup_cons_self]
      · have hmem2 : LibOp.register k f ∈ rest := by
          cases hmem with
          | head => exact absurd rfl he
          | tail _ hmm => exact hmm
        have hfresh2 : (registerKeys rest).Nodup := by
          cases op with
          | register k2 f2 =>
              rw [registerKeys_cons_register] at hfresh
              exact (List.nodup_cons.mp hfresh).2
          | dispatch k2 =>
              rw [registerKeys_cons_dispatch] at hfresh
              exact hfresh
        exact ih (tableStep op t0) hmem2 hfresh2

/-- Concrete registered callback for the C5 witness. -/
def wfn5 : Unit → Nat := fun _ => 42

/-- Witness for C5: after registering `wfn5` under key `7`, the table
still maps `7` to `wfn5`. -/
theorem mapped_functions_monotone_witness :
    (runOps [LibOp.register 7 wfn5] ([] : Table Nat)).lookup 7 = some wfn5 :=
  mapped_functions_monotone [LibOp.register 7 wfn5] [] 7 wfn5 (by simp)
    (by simp [registerKeys])

/-- C3: `preserve_cursor` and `preserve_buffer` capture the cursor
position (respectively the current buffer number) on entry and restore
exactly that captured state on every exit path of the body, while the
body's outcome — normal result or raised exception — propagates
unchanged. -/
theorem preserve_cursor_buffer_restore {E A : Type}
    (body1 body2 : VimState → VimState × Except E A) (s : VimState) :
    ((preserve_cursor body1 s).1.cursor = s.cursor
      ∧ (preserve_cursor body1 s).2 = (body1 s).2)
    ∧ ((preserve_buffer body2 s).1.curbuf = s.curbuf
      ∧ (preserve_buffer body2 s).2 = (body2 s).2) :=
  ⟨⟨rfl, rfl⟩, ⟨rfl, rfl⟩⟩

/-- C2: `get_global` catches exactly the host errors whose message
contains `"Vim:E121"`, returning `None`; any other `vim.error` is
re-raised, and a successful evaluation is returned as the value.  The
other host-evaluating functions of the library have no try/except, so
a host error propagates to the caller unchanged. -/
theorem get_global_only_catch (name stuff : String) (ns : Option String)
    (e : VimError) :
    (pyIn "Vim:E121" e.message = true →
      get_global (errHost e) name ns = Except.ok none)
    ∧ (pyIn "Vim:E121" e.message = false →
      get_global (errHost e) name ns = Except.error e)
    ∧ (∀ f : String → String,
        get_global (fun q => Except.ok (f q)) name ns =
          Except.ok (some (f (globalQuery name ns))))
    ∧ get_register_h (errHost e) name = Except.error e
    ∧ get_option_h (errHost e) name = Except.error e
    ∧ get_mode_h (errHost e) = Except.error e
    ∧ expand_h (errHost e) stuff = Except.error e := by
  refine ⟨?_, ?_, fun f => rfl, rfl, rfl, rfl, rfl⟩
  · intro h; simp [get_global, errHost, h]
  · intro h; simp [get_global, errHost, h]

/-- Witness for C2: an undefined-variable error (`Vim:E121`) is caught
and read as "value absent"; a different host error is re-raised. -/
theorem get_global_only_catch_witness :
    get_global (errHost ⟨"Vim:E121: Undefined variable: g:foo"⟩) "foo" none
      = Except.ok none
    ∧ get_global (errHost ⟨"Vim:E15: Invalid expression"⟩) "foo" none
      = Except.error ⟨"Vim:E15: Invalid expression"⟩ :=
  ⟨(get_global_only_catch "foo" "" none
      ⟨"Vim:E121: Undefined variable: g:foo"⟩).1 (by decide),
   (get_global_only_catch "foo" "" none
      ⟨"Vim:E15: Invalid expression"⟩).2.1 (by decide)⟩

/-- C6: the guard run at module import time: when
`"snake.plugin_loader"` is already present in `sys.modules`, the
plugin loader is reloaded via `reload(plugin_loader)`; otherwise
`plugin_loader` is imported for the first time. -/
theorem plugin_loader_guard_spec (sysModules : List String) :
    ("snake.plugin_loader" ∈ sysModules →
      plugin_loader_guard sysModules = LoaderAction.reloadExisting)
    ∧ ("snake.plugin_loader" ∉ sysModules →
      plugin_loader_guard sysModules = LoaderAction.freshImport) := by
  constructor
  · intro h; simp [plugin_loader_guard, h]
  · intro h; simp [plugin_loader_guard, h]

/-- Witness for C6 at concrete `sys.modules` key sets. -/
theorem plugin_loader_guard_witness :
    plugin_loader_guard ["snake.plugin_loader"] = LoaderAction.reloadExisting
    ∧ plugin_loader_guard ["os"] = LoaderAction.freshImport :=
  ⟨(plugin_loader_guard_spec ["snake.plugin_loader"]).1 (by decide),
   (plugin_loader_guard_spec ["os"]).2 (by decide)⟩

/-- C8: `get_register(name)` returns `None` exactly when the host
register holds the sentinel `EMPTY_REGISTER`, and the register's
literal contents otherwise; consequently after `clear_register` a read
returns `None`, and a caller who stores the sentinel itself via
`set_register` cannot read it back. -/
theorem get_register_sentinel (s : VimState) (r v : String) :
    (get_register r s = none ↔ s.registers r = EMPTY_REGISTER)
    ∧ (get_register r s = some v → v = s.registers r)
    ∧ get_register r (clear_register r s) = none
    ∧ get_register r (set_register r EMPTY_REGISTER s) = none := by
  refine ⟨?_, ?_, ?_, ?_⟩
  · by_cases h : s.registers r = EMPTY_REGISTER <;> simp [get_register, h]
  · intro hv
    unfold get_register at hv
    by_cases h : s.registers r = EMPTY_REGISTER
    · rw [if_pos h] at hv; cases hv
    · rw [if_neg h] at hv; exact (Option.some.inj hv).symm
  · simp [get_register, clear_register, set_register]
  · simp [get_register, set_register]

/-- Host state for the C8 witness: register `a` holds `"x"`. -/
def c8state : VimState :=
  ⟨(1, 1), 1, fun n => if n = "a" then "x" else "", []⟩

/-- Witness for C8: a normal read returns the literal contents, and a
read after `clear_register` returns `None`. -/
theorem get_register_sentinel_witness :
    (("x" : String) = c8state.registers "a")
    ∧ get_register "a" (clear_register "a" c8state) = none :=
  ⟨(get_register_sentinel c8state "a" "x").2.1 (by decide),
   (get_register_sentinel c8state "a" "x").2.2.1⟩

/-- `replaceChar` distributes over list append. -/
theorem replaceChar_append (c : Char) (rep : List Char) (l1 l2 : List Char) :
    replaceChar c rep (l1 ++ l2) =
      replaceChar c rep l1 ++ replaceChar c rep l2 := by
  induction l1 with
  | nil => rfl
  | cons a as ih => simp [replaceChar, ih]

/-- Composing the two replaces of `escape_string_sq` acts
characterwise: backslash becomes two backslashes, single quote becomes
backslash-quote, everything else is unchanged. -/
theorem escape_sq_chars (l : List Char) :
    replaceChar '\'' ['\\', '\''] (replaceChar '\\' ['\\', '\\'] l) =
      l.flatMap (fun c =>
        if c = '\\' then ['\\', '\\']
        else if c = '\'' then ['\\', '\''] else [c]) := by
  have hbq : ('\\' : Char) ≠ '\'' := by decide
  induction l with
  | nil => rfl
  | cons a as ih =>
      by_cases h1 : a = '\\'
      · subst h1
        simp [replaceChar, replaceChar_append, ih, hbq]
      · by_cases h2 : a = '\''
        · subst h2
          simp [replaceChar, replaceChar_append, ih, h1]
        · simp [replaceChar, replaceChar_append, ih, h1, h2]

/-- The source's `escape_string_sq` equals the spec's description of
`E(k)` (refinement of `specEscapeSq`). -/
theorem escape_string_sq_eq_spec (s : String) :
    escape_string_sq s = specEscapeSq s :=
  congrArg String.mk (escape_sq_chars s.data)

/-- C7: `keys(k)` sends to the host exactly one command string, namely
`execute 'normal! E(k)'` where `E(k)` is `k` with every backslash
doubled and every single quote backslash-escaped; it sends no other
command, changes no other modelled host state, and parses no value
back. -/
theorem keys_single_command (k : String) (s : VimState) :
    (keys k s).history =
      s.history ++ ["execute 'normal! " ++ escape_string_sq k ++ "'"]
    ∧ escape_string_sq k = specEscapeSq k
    ∧ (keys k s).registers = s.registers
    ∧ (keys k s).cursor = s.cursor
    ∧ (keys k s).curbuf = s.curbuf :=
  ⟨rfl, escape_string_sq_eq_spec k, rfl, rfl, rfl⟩

/-- Whatever keyword arguments the caller passes, the merged keyword
set of `partial(let, scope=NS_BUFFER)(*args, **kwargs)` contains
`"scope"`. -/
theorem scope_mem_mergeKwNames (kwNames : List String) :
    "scope" ∈ mergeKwNames ["scope"] kwNames := by
  by_cases h : "scope" ∈ kwNames
  · exact List.mem_append_right _ h
  · refine List.mem_append_left _ ?_
    refine List.mem_filter.mpr ⟨List.mem_singleton_self _, ?_⟩
    simp [h]

/-- C10: every invocation of `AutoCommandContext.let(name, value)`
raises a `TypeError`, because it forwards a `scope=` keyword argument
to `let`, whose signature `(name, value, namespace=None)` accepts no
such parameter; the call never binds, whatever arguments are
passed. -/
theorem acc_let_always_type_error (numPos : Nat) (kwNames : List String) :
    acc_let_binds numPos kwNames = false := by
  have hmem := scope_mem_mergeKwNames kwNames
  cases hb : (mergeKwNames ["scope"] kwNames).all
      (fun k => let_params.contains k) with
  | true =>
      have hc := List.all_eq_true.mp hb "scope" hmem
      exact absurd hc (by decide)
  | false =>
      unfold acc_let_binds pythonCallOk
      rw [hb]
      simp

/-- `set_register` writes only the named register. -/
theorem set_register_registers (name val : String) (s : VimState)
    (n : String) :
    (set_register name val s).registers n =
      if n = name then val else s.registers n := rfl

/-- Clearing one register leaves a different register's read
unchanged. -/
theorem get_register_clear_ne {r r2 : String} (h : r ≠ r2) (s : VimState) :
    get_register r (clear_register r2 s) = get_register r s := by
  simp [get_register, clear_register, set_register_registers, h]

/-- Reads agree on states whose register entry agrees. -/
theorem get_register_congr {s1 s2 : VimState} (r : String)
    (h : s1.registers r = s2.registers r) :
    get_register r s1 = get_register r s2 := by
  simp [get_register, h]

/-- After the capture-and-clear loop every iterated register holds the
sentinel and every other register is untouched. -/
theorem captureClear_registers (rs : List String) :
    ∀ (d : List (String × Option String)) (s : VimState) (n : String),
      ((captureClear rs d s).2).registers n =
        if n ∈ rs then EMPTY_REGISTER else s.registers n := by
  induction rs with
  | nil => intro d s n; simp [captureClear]
  | cons r rs2 ih =>
      intro d s n
      rw [captureClear, ih]
      by_cases h1 : n ∈ rs2
      · simp [h1]
      · by_cases h2 : n = r
        · simp [h1, h2, clear_register, set_register_registers]
        · simp [h1, h2, clear_register, set_register_registers]

/-- The capture loop only prepends entries for the iterated names. -/
theorem captureClear_lookup_stable (rs : List String) :
    ∀ (d : List (String × Option String)) (s : VimState) {r : String},
      r ∉ rs → ((captureClear rs d s).1).lookup r = d.lookup r := by
  induction rs with
  | nil => intro d s r _; rfl
  | cons r2 rs2 ih =>
      intro d s r h
      have h1 : r ≠ r2 := fun he => h (he ▸ List.mem_cons_self _ _)
      have h2 : r ∉ rs2 := fun he => h (List.mem_cons_of_mem _ he)
      rw [captureClear, ih _ _ h2, lookup_cons_ne h1]

/-- With pairwise-distinct names, the capture loop records for each
name the register's contents at entry (clearing the earlier names does
not affect it). -/
theorem captureClear_lookup (rs : List String) :
    ∀ (d : List (String × Option String)) (s : VimState) {r : String},
      rs.Nodup → r ∈ rs →
      ((captureClear rs d s).1).lookup r = some (get_register r s) := by
  induction rs with
  | nil => intro d s r _ hm; cases hm
  | cons r2 rs2 ih =>
      intro d s r hnd hm
      rw [captureClear]
      by_cases he : r = r2
      · subst he
        have hr : r ∉ rs2 := (List.nodup_cons.mp hnd).1
        rw [captureClear_lookup_stable _ _ _ hr, lookup_cons_self]
      · have hm2 : r ∈ rs2 := by
          cases hm with
          | head => exact absurd rfl he
          | tail _ hmm => exact hmm
        rw [ih _ _ (List.nodup_cons.mp hnd).2 hm2, get_register_clear_ne he]

/-- The restore loop does not touch registers it does not iterate. -/
theorem restoreRegs_registers_stable (old : List (String × Option String))
    (names : List String) :
    ∀ (s : VimState) {r : String}, r ∉ names →
      (restoreRegs old names s).registers r = s.registers r := by
  induction names with
  | nil => intro s r _; rfl
  | cons n ns ih =>
      intro s r h
      have h1 : r ≠ n := fun he => h (he ▸ List.mem_cons_self _ _)
      have h2 : r ∉ ns := fun he => h (List.mem_cons_of_mem _ he)
      rw [restoreRegs, ih _ h2]
      cases old.lookup n with
      | none => rfl
      | some o =>
          cases o with
          | none => rfl
          | some v => simp [set_register_registers, h1]

/-- Over pairwise-distinct names, the restore loop writes each name
its captured contents when they are not `None` and leaves it untouched
otherwise. -/
theorem restoreRegs_registers (old : List (String × Option String))
    (names : List String) :
    ∀ (s : VimState) {r : String} {o : Option String},
      names.Nodup → r ∈ names → old.lookup r = some o →
      (restoreRegs old names s).registers r =
        match o with
        | some v => v
        | none => s.registers r := by
  induction names with
  | nil => intro s r o _ hm _; cases hm
  | cons n ns ih =>
      intro s r o hnd hm hl
      rw [restoreRegs]
      by_cases he : r = n
      · subst he
        have hr : r ∉ ns := (List.nodup_cons.mp hnd).1
        rw [restoreRegs_registers_stable _ _ _ hr, hl]
        cases o with
        | none => rfl
        | some v => simp [set_register_registers]
      · have hm2 : r ∈ ns := by
          cases hm with
          | head => exact absurd rfl he
          | tail _ hmm => exact hmm
        rw [ih _ (List.nodup_cons.mp hnd).2 hm2 hl]
        cases o with
        | some v => rfl
        | none =>
            cases old.lookup n with
            | none => rfl
            | some oo =>
                cases oo with
                | none => rfl
                | some v => simp [set_register_registers, he]

/-- C4 (amended): for pairwise-distinct register names that avoid the
special registers `'0'` and `'"'`, `preserve_registers(*regs)`
captures each named register's contents and the two special registers'
contents on entry, clears each named register before the body runs,
and on every exit path — the body's result or exception propagating
unchanged — restores every one of these registers whose captured read
was not `None`; a register that held the clear-sentinel on entry
(captured read `None`) is left exactly as the body left it. -/
theorem preserve_registers_amended {E A : Type} (regs : List String)
    (body : VimState → VimState × Except E A) (s : VimState)
    (hnd : regs.Nodup) (h0 : "0" ∉ regs) (hq : "\"" ∉ regs) :
    (∀ r ∈ regs, ((captureClear regs [] s).2).registers r = EMPTY_REGISTER)
    ∧ (preserve_registers regs body s).2 =
        (body (captureClear regs [] s).2).2
    ∧ (∀ r ∈ regs ++ ["0", "\""],
        ((preserve_registers regs body s).1).registers r =
          match get_register r s with
          | some v => v
          | none => ((body (captureClear regs [] s).2).1).registers r) := by
  refine ⟨?_, rfl, ?_⟩
  · intro r hr
    rw [captureClear_registers]
    simp [hr]
  · intro r hr
    have hnames : (regs ++ ["0", "\""]).Nodup := by
      rw [List.nodup_append]
      refine ⟨hnd, by decide, ?_⟩
      intro a ha hb
      have hab : a = "0" ∨ a = "\"" := by simpa using hb
      cases hab with
      | inl h => exact h0 (h ▸ ha)
      | inr h => exact hq (h ▸ ha)
    have hlook : (("\"", get_register "\"" (captureClear regs [] s).2) ::
        ("0", get_register "0" (captureClear regs [] s).2) ::
        (captureClear regs [] s).1).lookup r = some (get_register r s) := by
      rcases List.mem_append.mp hr with hmr | hms
      · have hr0 : r ≠ "0" := fun he => h0 (he ▸ hmr)
        have hrq : r ≠ "\"" := fun he => hq (he ▸ hmr)
        rw [lookup_cons_ne hrq, lookup_cons_ne hr0]
        exact captureClear_lookup regs [] s hnd hmr
      · have hrs : r = "0" ∨ r = "\"" := by simpa using hms
        cases hrs with
        | inl he =>
            subst he
            rw [lookup_cons_ne (by decide), lookup_cons_self]
            have hreg : ((captureClear regs [] s).2).registers "0" =
                s.registers "0" := by
              rw [captureClear_registers]; simp [h0]
            rw [get_register_congr _ hreg]
        | inr he =>
            subst he
            rw [lookup_cons_self]
            have hreg : ((captureClear regs [] s).2).registers "\"" =
                s.registers "\"" := by
              rw [captureClear_registers]; simp [hq]
            rw [get_register_congr _ hreg]
    exact restoreRegs_registers _ _ _ hnames hr hlook

/-- Host state for the C4 counterexample: register `a` holds the
clear-sentinel `EMPTY_REGISTER` on entry, so its captured read is
`None`. -/
def c4state : VimState :=
  ⟨(1, 1), 1, fun n => if n = "a" then EMPTY_REGISTER else "", []⟩

/-- Body for the C4 counterexample: writes `"hello"` into register `a`
and returns normally. -/
def c4body : VimState → VimState × Except Unit Unit :=
  fun st => (set_register "a" "hello" st, Except.ok ())

/-- Counterexample to C4 as stated: with register `a` holding the
sentinel on entry, `preserve_registers("a")` does not restore `a` to
its captured contents on exit — the body's write survives. -/
theorem preserve_registers_counterexample :
    ((preserve_registers ["a"] c4body c4state).1).registers "a" = "hello"
    ∧ c4state.registers "a" = EMPTY_REGISTER
    ∧ ((preserve_registers ["a"] c4body c4state).1).registers "a"
        ≠ c4state.registers "a" := by
  refine ⟨by decide, by decide, by decide⟩

/-- Host state for the C4 witness: register `a` holds `"x"`, register
`0` holds `"y"`, register `"` holds `"z"`. -/
def c4wstate : VimState :=
  ⟨(1, 1), 1,
   fun n => if n = "a" then "x" else if n = "0" then "y"
            else if n = "\"" then "z" else "",
   []⟩

/-- Body for the C4 witness: overwrites registers `a` and `0`, then
raises an exception. -/
def c4wbody : VimState → VimState × Except String Unit :=
  fun st =>
    (set_register "0" "junk" (set_register "a" "junk" st),
     Except.error "boom")

/-- Witness for the amended C4 at concrete inputs: the named register
is cleared for the body, the body's exception propagates, and
registers `a` and `0` are restored to their entry contents. -/
theorem preserve_registers_amended_witness :
    ((captureClear ["a"] [] c4wstate).2).registers "a" = EMPTY_REGISTER
    ∧ (preserve_registers ["a"] c4wbody c4wstate).2 = Except.error "boom"
    ∧ ((preserve_registers ["a"] c4wbody c4wstate).1).registers "a" = "x"
    ∧ ((preserve_registers ["a"] c4wbody c4wstate).1).registers "0" = "y" := by
  have h := preserve_registers_amended ["a"] c4wbody c4wstate
    (by decide) (by decide) (by decide)
  refine ⟨h.1 "a" (by decide), ?_, ?_, ?_⟩
  · rw [h.2.1]; rfl
  · rw [h.2.2 "a" (by decide)]; rfl
  · rw [h.2.2 "0" (by decide)]; rfl

end Snake
